import Mathlib

/-!
Verification of the webhook-listing endpoint
(`packages/api/src/routers/external-api/v2/webhooks.ts`).

The endpoint formats stored webhook documents through
`formatExternalWebhook`, which serializes the mongoose document to JSON
(`JSON.stringify` / `JSON.parse`) and then validates the result against a
service-discriminated zod schema (`externalWebhookSchema`), stripping every
field the selected variant does not declare.  Records that fail validation
are logged and dropped from the listing.

We model JavaScript JSON-like values with a mutually inductive type so that
all functions are structurally recursive and compute by `rfl`.
-/

mutual
/-- A JavaScript value as it appears in the serialization pipeline.
`date` and `objectId` model the non-plain values held by a mongoose
document (`Date` timestamps and BSON `ObjectId`s); both serialize to their
string form under `JSON.stringify`. -/
inductive JsValue where
  | null : JsValue
  | bool (b : Bool) : JsValue
  | num (n : Int) : JsValue
  | str (s : String) : JsValue
  | date (iso : String) : JsValue
  | objectId (hex : String) : JsValue
  | arr (elems : JsList) : JsValue
  | obj (fields : JsFields) : JsValue

/-- A list of JavaScript values (elements of a JSON array). -/
inductive JsList where
  | nil : JsList
  | cons (v : JsValue) (tl : JsList) : JsList

/-- The key/value fields of a JavaScript object, in insertion order. -/
inductive JsFields where
  | nil : JsFields
  | cons (k : String) (v : JsValue) (tl : JsFields) : JsFields
end

mutual
/-- Semantics of `JSON.parse(JSON.stringify(v))`: `Date`s and `ObjectId`s
collapse to their string encodings (via their `toJSON` methods), plain JSON
values are preserved. -/
def jsonRoundTrip : JsValue → JsValue
  | .null => .null
  | .bool b => .bool b
  | .num n => .num n
  | .str s => .str s
  | .date iso => .str iso
  | .objectId h => .str h
  | .arr xs => .arr (jsonRoundTripList xs)
  | .obj fs => .obj (jsonRoundTripFields fs)

/-- `jsonRoundTrip` mapped over array elements. -/
def jsonRoundTripList : JsList → JsList
  | .nil => .nil
  | .cons v tl => .cons (jsonRoundTrip v) (jsonRoundTripList tl)

/-- `jsonRoundTrip` mapped over object fields. -/
def jsonRoundTripFields : JsFields → JsFields
  | .nil => .nil
  | .cons k v tl => .cons k (jsonRoundTrip v) (jsonRoundTripFields tl)
end

/-- Concatenation of object field lists. -/
def JsFields.append : JsFields → JsFields → JsFields
  | .nil, l => l
  | .cons k v tl, l => .cons k v (JsFields.append tl l)

/-- Concatenation of a list of object field lists. -/
def JsFields.concat : List JsFields → JsFields
  | [] => .nil
  | f :: rest => f.append (JsFields.concat rest)

/-- First value stored under key `key`, if any (JavaScript property read). -/
def JsFields.lookupKey : JsFields → String → Option JsValue
  | .nil, _ => none
  | .cons k v tl, key => if k = key then some v else tl.lookupKey key

/-- The keys of an object field list, in order. -/
def JsFields.keyList : JsFields → List String
  | .nil => []
  | .cons k _ tl => k :: tl.keyList

/-- An optional field: present when the value is `some`, wholly absent when
`none` (JavaScript omits `undefined` properties on serialization). -/
def optField (k : String) : Option JsValue → JsFields
  | none => .nil
  | some v => .cons k v .nil

/-- A stored string-to-string headers map rendered as a JSON object. -/
def headerFields : List (String × String) → JsFields
  | [] => .nil
  | (k, v) :: tl => .cons k (.str v) (headerFields tl)

/-- Whether an object value has the given key (`hasOwnProperty`). -/
def JsValue.hasKey (v : JsValue) (k : String) : Bool :=
  match v with
  | .obj fields => (fields.lookupKey k).isSome
  | _ => false

/-- Property read on an object value. -/
def JsValue.getKey (v : JsValue) (k : String) : Option JsValue :=
  match v with
  | .obj fields => fields.lookupKey k
  | _ => none

/-- The keys of an object value (empty for non-objects). -/
def JsValue.keyList (v : JsValue) : List String :=
  match v with
  | .obj fields => fields.keyList
  | _ => []

/-- Escape one character for a JSON string literal (92 is the backslash,
34 the double quote). -/
def escapeChar (c : Char) : String :=
  if c = Char.ofNat 92 then "\\\\"
  else if c = Char.ofNat 34 then "\\\""
  else String.singleton c

/-- Escape a string for inclusion in a JSON string literal. -/
def escapeString (s : String) : String :=
  String.join (s.toList.map escapeChar)

mutual
/-- Byte-level result of `JSON.stringify` on a value (`date` and
`objectId` stringify through their `toJSON` methods, i.e. as their
string encodings). -/
def JsValue.stringify : JsValue → String
  | .null => "null"
  | .bool b => if b then "true" else "false"
  | .num n => toString n
  | .str s => "\"" ++ escapeString s ++ "\""
  | .date iso => "\"" ++ escapeString iso ++ "\""
  | .objectId h => "\"" ++ escapeString h ++ "\""
  | .arr xs => "[" ++ JsList.stringifyElems xs ++ "]"
  | .obj fs => "\x7b" ++ JsFields.stringifyFields fs ++ "\x7d"

/-- Comma-separated serialization of array elements. -/
def JsList.stringifyElems : JsList → String
  | .nil => ""
  | .cons v .nil => v.stringify
  | .cons v tl => v.stringify ++ "," ++ JsList.stringifyElems tl

/-- Comma-separated serialization of object fields. -/
def JsFields.stringifyFields : JsFields → String
  | .nil => ""
  | .cons k v .nil => "\"" ++ escapeString k ++ "\":" ++ v.stringify
  | .cons k v tl =>
      "\"" ++ escapeString k ++ "\":" ++ v.stringify ++ "," ++
        JsFields.stringifyFields tl
end

/-- Modelled from the spec: the mongoose `WebhookDocument` (the `Webhook`
model from `@/models/webhook` is not part of this excerpt).  A stored
record holds `{ id, team, name, service, url?, description?, headers?,
body?, createdAt, updatedAt }`; `headers` and `body` may be present
regardless of `service`.  Every field is optional here so that malformed
or legacy records (missing required fields) are representable; `_id` and
`team` are ObjectId hex strings and the timestamps are ISO date strings. -/
structure WebhookDocument where
  _id : Option String
  team : Option String
  name : Option String
  service : Option String
  url : Option String
  description : Option String
  headers : Option (List (String × String))
  body : Option String
  createdAt : Option String
  updatedAt : Option String
  deriving Repr, DecidableEq

/-- Modelled from the spec: `webhook.toJSON({ getters: true })` — the plain
representation of the document, with the `id` getter materialized from
`_id` as a string, ObjectIds still `ObjectId` values and timestamps still
`Date` values (both are collapsed to strings only by the
`JSON.stringify` / `JSON.parse` round trip).  Absent fields are omitted. -/
def WebhookDocument.toJSON (w : WebhookDocument) : JsValue :=
  .obj (JsFields.concat
    [optField "_id" (w._id.map .objectId),
     optField "id" (w._id.map .str),
     optField "team" (w.team.map .objectId),
     optField "name" (w.name.map .str),
     optField "service" (w.service.map .str),
     optField "url" (w.url.map .str),
     optField "description" (w.description.map .str),
     optField "headers" (w.headers.map (fun hs => .obj (headerFields hs))),
     optField "body" (w.body.map .str),
     optField "createdAt" (w.createdAt.map .date),
     optField "updatedAt" (w.updatedAt.map .date)])

/-- The three service discriminator values of the schema. -/
def knownServices : List String := ["slack", "incidentio", "generic"]

/-- The string carried by a string value, if it is one. -/
def strOfVal : JsValue → Option String
  | .str s => some s
  | _ => none

/-- Read a required string field: fails when the key is absent or the value
is not a string. -/
def getStr (fields : JsFields) (k : String) : Option String :=
  (fields.lookupKey k).bind strOfVal

/-- Read an optional string field: absent is fine (`some none`), a present
non-string value is a validation failure (`none`). -/
def getOptStr (fields : JsFields) (k : String) : Option (Option String) :=
  (fields.lookupKey k).elim (some none) (fun v => (strOfVal v).map some)

/-- Object fields all of whose values are strings, as a string map;
fails when some value is not a string. -/
def strEntries : JsFields → Option (List (String × String))
  | .nil => some []
  | .cons k (.str v) tl => (strEntries tl).map (fun rest => (k, v) :: rest)
  | .cons _ _ _ => none

/-- A string-valued headers object, if the value is one. -/
def headersOfVal : JsValue → Option (List (String × String))
  | .obj entries => strEntries entries
  | _ => none

/-- Read the optional `headers` field: absent is fine, a present value must
be an object with string values. -/
def getOptHeaders (fields : JsFields) : Option (Option (List (String × String))) :=
  (fields.lookupKey "headers").elim (some none) (fun v => (headersOfVal v).map some)

/-- Modelled from the spec: `externalWebhookSchema.safeParse` (the schema
lives in `@/utils/zod`, which is not part of this excerpt).  A
discriminated union keyed on `service` with variants `slack`,
`incidentio` and `generic`: every variant requires string fields `id`,
`name`, `service`, `createdAt`, `updatedAt` and permits optional strings
`url` and `description`; only the `generic` variant additionally permits
an optional string-valued `headers` object and an optional string `body`.
Keys not declared by the selected variant are stripped; an unknown
discriminator or a missing/malformed required field fails the parse. -/
def externalWebhookSchema.safeParse (v : JsValue) : Option JsValue :=
  match v with
  | .obj fields =>
    match getStr fields "service" with
    | none => none
    | some service =>
      if service ∈ knownServices then
        match getStr fields "id", getStr fields "name",
              getStr fields "createdAt", getStr fields "updatedAt" with
        | some i, some nm, some ca, some ua =>
          match getOptStr fields "url", getOptStr fields "description" with
          | some u, some d =>
            if service = "generic" then
              match getOptHeaders fields, getOptStr fields "body" with
              | some hs, some b =>
                some (.obj (JsFields.concat
                  [.cons "id" (.str i) (.cons "name" (.str nm)
                     (.cons "service" (.str service) .nil)),
                   optField "url" (u.map .str),
                   optField "description" (d.map .str),
                   optField "headers" (hs.map (fun h => .obj (headerFields h))),
                   optField "body" (b.map .str),
                   .cons "createdAt" (.str ca)
                     (.cons "updatedAt" (.str ua) .nil)]))
              | _, _ => none
            else
              some (.obj (JsFields.concat
                [.cons "id" (.str i) (.cons "name" (.str nm)
                   (.cons "service" (.str service) .nil)),
                 optField "url" (u.map .str),
                 optField "description" (d.map .str),
                 .cons "createdAt" (.str ca)
                   (.cons "updatedAt" (.str ua) .nil)]))
          | _, _ => none
        | _, _, _, _ => none
      else none
  | _ => none

/-- `formatExternalWebhook` from `webhooks.ts`: serialize the document to
JSON (converting ObjectIds and Dates to strings), then validate with
`externalWebhookSchema` to strip any fields not defined in the schema;
on a failed parse, log and return `undefined` (here `none`). -/
def formatExternalWebhook (webhook : WebhookDocument) : Option JsValue :=
  externalWebhookSchema.safeParse (jsonRoundTrip webhook.toJSON)

/-- The external view emitted for the `slack` / `incidentio` variants:
base fields only, optional `url` / `description`, never `headers` or
`body`. -/
def slackView (i nm svc : String) (u d : Option String) (ca ua : String) : JsValue :=
  .obj (JsFields.concat
    [.cons "id" (.str i) (.cons "name" (.str nm) (.cons "service" (.str svc) .nil)),
     optField "url" (u.map .str),
     optField "description" (d.map .str),
     .cons "createdAt" (.str ca) (.cons "updatedAt" (.str ua) .nil)])

/-- The external view emitted for the `generic` variant: base fields plus
optional `headers` and `body`. -/
def genericView (i nm svc : String) (u d : Option String)
    (hs : Option (List (String × String))) (b : Option String)
    (ca ua : String) : JsValue :=
  .obj (JsFields.concat
    [.cons "id" (.str i) (.cons "name" (.str nm) (.cons "service" (.str svc) .nil)),
     optField "url" (u.map .str),
     optField "description" (d.map .str),
     optField "headers" (hs.map (fun h => .obj (headerFields h))),
     optField "body" (b.map .str),
     .cons "createdAt" (.str ca) (.cons "updatedAt" (.str ua) .nil)])

/-- Reference characterization of the formatter directly on the stored
fields: succeeds exactly when `service` is a known discriminator and the
required fields are present, producing the variant view. -/
def formatSpec (w : WebhookDocument) : Option JsValue :=
  match w.service with
  | none => none
  | some svc =>
    if svc ∈ knownServices then
      match w._id, w.name, w.createdAt, w.updatedAt with
      | some i, some nm, some ca, some ua =>
          if svc = "generic" then
            some (genericView i nm svc w.url w.description w.headers w.body ca ua)
          else
            some (slackView i nm svc w.url w.description ca ua)
      | _, _, _, _ => none
    else none

@[simp] theorem lookupKey_nil (k : String) : JsFields.nil.lookupKey k = none := rfl

@[simp] theorem lookupKey_cons (k1 : String) (v : JsValue) (tl : JsFields) (k : String) :
    (JsFields.cons k1 v tl).lookupKey k =
      if k1 = k then some v else tl.lookupKey k := rfl

@[simp] theorem nil_append (l : JsFields) : JsFields.nil.append l = l := rfl

@[simp] theorem cons_append (k : String) (v : JsValue) (tl l : JsFields) :
    (JsFields.cons k v tl).append l = .cons k v (tl.append l) := rfl

@[simp] theorem concat_nil : JsFields.concat [] = .nil := rfl

@[simp] theorem concat_cons (f : JsFields) (rest : List JsFields) :
    JsFields.concat (f :: rest) = f.append (JsFields.concat rest) := rfl

@[simp] theorem lookupKey_append : ∀ (l1 l2 : JsFields) (k : String),
    (l1.append l2).lookupKey k = (l1.lookupKey k).or (l2.lookupKey k)
  | .nil, l2, k => by simp
  | .cons k1 v tl, l2, k => by
      simp only [cons_append, lookupKey_cons, lookupKey_append tl l2 k]
      split <;> simp

@[simp] theorem lookupKey_optField (k1 k : String) (v : Option JsValue) :
    (optField k1 v).lookupKey k = if k1 = k then v else none := by
  cases v <;> simp [optField]

@[simp] theorem jsonRoundTripFields_append : ∀ (l1 l2 : JsFields),
    jsonRoundTripFields (l1.append l2) =
      (jsonRoundTripFields l1).append (jsonRoundTripFields l2)
  | .nil, _ => rfl
  | .cons k v tl, l2 => by
      simp [jsonRoundTripFields, JsFields.append, jsonRoundTripFields_append tl l2]

@[simp] theorem jsonRoundTripFields_optField (k : String) (v : Option JsValue) :
    jsonRoundTripFields (optField k v) = optField k (v.map jsonRoundTrip) := by
  cases v <;> rfl

@[simp] theorem roundTrip_headerFields (hs : List (String × String)) :
    jsonRoundTripFields (headerFields hs) = headerFields hs := by
  induction hs with
  | nil => rfl
  | cons p tl ih =>
      cases p
      simp [headerFields, jsonRoundTripFields, jsonRoundTrip, ih]

@[simp] theorem strEntries_headerFields (hs : List (String × String)) :
    strEntries (headerFields hs) = some hs := by
  induction hs with
  | nil => rfl
  | cons p tl ih =>
      cases p
      simp [headerFields, strEntries, ih]

@[simp] theorem bind_map_str_strOfVal (u : Option String) :
    (u.map JsValue.str).bind strOfVal = u := by
  cases u <;> rfl

@[simp] theorem elim_map {α β γ : Type} (u : Option α) (g : α → β) (z : γ)
    (f : β → γ) : (u.map g).elim z f = u.elim z (fun x => f (g x)) := by
  cases u <;> rfl

@[simp] theorem elim_some_pair {α : Type} (u : Option α) :
    u.elim (some none) (fun s => some (some s)) = some u := by
  cases u <;> rfl

@[simp] theorem jsonRoundTripFields_nil : jsonRoundTripFields .nil = .nil := rfl

@[simp] theorem map_comp_roundTrip_str (u : Option String) :
    Option.map (jsonRoundTrip ∘ JsValue.str) u = Option.map JsValue.str u := by
  cases u <;> simp [jsonRoundTrip, Function.comp]

@[simp] theorem map_comp_roundTrip_date (u : Option String) :
    Option.map (jsonRoundTrip ∘ JsValue.date) u = Option.map JsValue.str u := by
  cases u <;> simp [jsonRoundTrip, Function.comp]

@[simp] theorem map_comp_roundTrip_objectId (u : Option String) :
    Option.map (jsonRoundTrip ∘ JsValue.objectId) u = Option.map JsValue.str u := by
  cases u <;> simp [jsonRoundTrip, Function.comp]

@[simp] theorem map_comp_roundTrip_headers (hs : Option (List (String × String))) :
    Option.map (jsonRoundTrip ∘ fun h => JsValue.obj (headerFields h)) hs =
      Option.map (fun h => JsValue.obj (headerFields h)) hs := by
  cases hs <;> simp [jsonRoundTrip, Function.comp]

set_option maxHeartbeats 3200000 in
theorem format_eval (w : WebhookDocument) :
    formatExternalWebhook w = formatSpec w := by
  obtain ⟨i, t, n, s, u, d, hs, b, ca, ua⟩ := w
  rcases s with _ | s <;> rcases i with _ | i <;> rcases n with _ | n <;>
    rcases ca with _ | ca <;> rcases ua with _ | ua <;>
    simp [formatExternalWebhook, WebhookDocument.toJSON,
      externalWebhookSchema.safeParse, formatSpec, slackView, genericView,
      jsonRoundTrip, jsonRoundTripFields, getStr, getOptStr, getOptHeaders,
      strOfVal, headersOfVal]

/-- `Webhook.find({ team: teamId.toString() })` — the storage query: all
records whose `team` field equals the caller's team id, in natural
retrieval order. -/
def Webhook.find (db : List WebhookDocument) (teamId : String) : List WebhookDocument :=
  db.filter (fun w => w.team == some teamId)

/-- `webhooks.map(formatExternalWebhook).filter(s => s !== undefined)` from
the route handler: format every retrieved record, keep the defined
results. -/
def listWebhooksData (webhooks : List WebhookDocument) : List JsValue :=
  ((webhooks.map formatExternalWebhook).filter (fun s => s.isSome)).reduceOption

/-- JsList from a Lean list of values. -/
def JsList.ofList : List JsValue → JsList
  | [] => .nil
  | v :: tl => .cons v (JsList.ofList tl)

/-- Outcome of one `GET /api/v2/webhooks` request: HTTP status, the JSON
body sent with `res.json` (if any), and how many storage queries were
issued. -/
structure HandlerResult where
  status : Nat
  body : Option JsValue
  storageQueries : Nat

/-- The route handler (`router.get('/')`): an authenticated caller without
a resolvable team is answered `403` before any storage query; otherwise
the team's webhooks are fetched, formatted, filtered and returned as
`{ data: [...] }` with status `200`. -/
def routerGet (db : List WebhookDocument) (userTeam : Option String) : HandlerResult :=
  match userTeam with
  | none => { status := 403, body := none, storageQueries := 0 }
  | some teamId =>
      let webhooks := Webhook.find db teamId
      { status := 200,
        body := some (.obj (.cons "data"
          (.arr (JsList.ofList (listWebhooksData webhooks))) .nil)),
        storageQueries := 1 }

/-- The keys the service variant declares (the whitelist of the schema). -/
def allowedKeys (svc : String) : List String :=
  if svc = "generic" then
    ["id", "name", "service", "url", "description", "headers", "body",
     "createdAt", "updatedAt"]
  else
    ["id", "name", "service", "url", "description", "createdAt", "updatedAt"]

@[simp] theorem keyList_nil : JsFields.nil.keyList = [] := rfl

@[simp] theorem keyList_cons (k : String) (v : JsValue) (tl : JsFields) :
    (JsFields.cons k v tl).keyList = k :: tl.keyList := rfl

@[simp] theorem keyList_append : ∀ (l1 l2 : JsFields),
    (l1.append l2).keyList = l1.keyList ++ l2.keyList
  | .nil, _ => rfl
  | .cons k v tl, l2 => by
      simp [JsFields.append, JsFields.keyList, keyList_append tl l2]

@[simp] theorem keyList_optField (k : String) (v : Option JsValue) :
    (optField k v).keyList = v.elim [] (fun _ => [k]) := by
  cases v <;> rfl

theorem listWebhooksData_eq_filterMap (l : List WebhookDocument) :
    listWebhooksData l = l.filterMap formatExternalWebhook := by
  induction l with
  | nil => rfl
  | cons w tl ih =>
      cases hw : formatExternalWebhook w <;>
        simp [listWebhooksData, List.filterMap_cons, hw] <;>
        simpa [listWebhooksData] using ih

theorem format_some_cases (w : WebhookDocument) (v : JsValue)
    (h : formatExternalWebhook w = some v) :
    ∃ svc i nm ca ua, w.service = some svc ∧ svc ∈ knownServices ∧
      w._id = some i ∧ w.name = some nm ∧
      w.createdAt = some ca ∧ w.updatedAt = some ua ∧
      ((svc = "generic" ∧
          v = genericView i nm svc w.url w.description w.headers w.body ca ua) ∨
       (svc ≠ "generic" ∧ v = slackView i nm svc w.url w.description ca ua)) := by
  rw [format_eval] at h
  unfold formatSpec at h
  split at h
  · exact absurd h (by simp)
  next svc hsvc =>
    split at h
    · split at h
      next i nm ca ua hi hnm hca hua =>
        split at h
        next hgen =>
          injection h with h
          exact ⟨svc, i, nm, ca, ua, hsvc, by assumption, hi, hnm, hca, hua,
            Or.inl ⟨hgen, h.symm⟩⟩
        next hgen =>
          injection h with h
          exact ⟨svc, i, nm, ca, ua, hsvc, by assumption, hi, hnm, hca, hua,
            Or.inr ⟨hgen, h.symm⟩⟩
      next hfail =>
        exact absurd h (by simp)
    · exact absurd h (by simp)

/-- A well-formed Slack record that also carries legacy `headers` and
`body` data in storage. -/
def sampleSlack : WebhookDocument :=
  { _id := some "65a1b2c3d4e5f60718293a4b", team := some "team-a",
    name := some "T1", service := some "slack",
    url := some "https://hooks.slack.com/services/T0/B0/XXXX",
    description := none,
    headers := some [("X-Secret", "secret")],
    body := some "hello",
    createdAt := some "2024-01-01T00:00:00.000Z",
    updatedAt := some "2024-01-02T00:00:00.000Z" }

/-- The external view of `sampleSlack`. -/
def sampleSlackView : JsValue :=
  slackView "65a1b2c3d4e5f60718293a4b" "T1" "slack"
    (some "https://hooks.slack.com/services/T0/B0/XXXX") none
    "2024-01-01T00:00:00.000Z" "2024-01-02T00:00:00.000Z"

/-- A well-formed Generic record with headers and a body template. -/
def sampleGeneric : WebhookDocument :=
  { _id := some "65a1b2c3d4e5f60718293a4c", team := some "team-a",
    name := some "Test Generic Webhook", service := some "generic",
    url := some "https://example.com/webhook",
    description := some "Test generic webhook",
    headers := some [("X", "Y")],
    body := some "\x7b\x7btitle\x7d\x7d",
    createdAt := some "2024-01-01T00:00:00.000Z",
    updatedAt := some "2024-01-02T00:00:00.000Z" }

/-- The external view of `sampleGeneric`. -/
def sampleGenericView : JsValue :=
  genericView "65a1b2c3d4e5f60718293a4c" "Test Generic Webhook" "generic"
    (some "https://example.com/webhook") (some "Test generic webhook")
    (some [("X", "Y")]) (some "\x7b\x7btitle\x7d\x7d")
    "2024-01-01T00:00:00.000Z" "2024-01-02T00:00:00.000Z"

/-- A malformed record: required `name` is missing. -/
def sampleInvalid : WebhookDocument :=
  { _id := some "65a1b2c3d4e5f60718293a4d", team := some "team-a",
    name := none, service := some "slack", url := none, description := none,
    headers := none, body := none,
    createdAt := some "2024-01-01T00:00:00.000Z",
    updatedAt := some "2024-01-02T00:00:00.000Z" }

/-- A record owned by a different team. -/
def sampleOtherTeam : WebhookDocument :=
  { _id := some "65a1b2c3d4e5f60718293a4e", team := some "team-b",
    name := some "Other Team Webhook", service := some "slack",
    url := none, description := none, headers := none, body := none,
    createdAt := some "2024-01-01T00:00:00.000Z",
    updatedAt := some "2024-01-02T00:00:00.000Z" }

/-- Claim C1: for every stored record whose service is Slack or IncidentIO,
a defined external view contains neither a `headers` key nor a `body` key,
even when those fields are populated in storage. -/
theorem slack_incidentio_views_omit_headers_body
    (w : WebhookDocument) (v : JsValue)
    (hsvc : w.service = some "slack" ∨ w.service = some "incidentio")
    (hv : formatExternalWebhook w = some v) :
    v.hasKey "headers" = false ∧ v.hasKey "body" = false := by
  obtain ⟨svc, i, nm, ca, ua, hsv, hmem, hi, hnm, hca, hua, hcase⟩ :=
    format_some_cases w v hv
  rcases hcase with ⟨hgen, hveq⟩ | ⟨hgen, hveq⟩
  · exfalso
    rcases hsvc with h | h <;> rw [h] at hsv <;> injection hsv with hsv <;>
      rw [← hsv] at hgen <;> simp at hgen
  · subst hveq
    constructor <;> simp [slackView, JsValue.hasKey]

/-- Witness for C1 at the Slack record with populated legacy fields. -/
theorem slack_incidentio_views_omit_headers_body_witness :
    JsValue.hasKey sampleSlackView "headers" = false ∧
      JsValue.hasKey sampleSlackView "body" = false :=
  slack_incidentio_views_omit_headers_body sampleSlack sampleSlackView
    (Or.inl rfl) rfl

/-- Claim C2: every key of a defined external view is declared by the
schema variant selected by the record's `service` (whitelist), and a field
absent in storage is an absent key in the view, not a null key. -/
theorem external_view_keys_whitelisted (w : WebhookDocument) (v : JsValue)
    (hv : formatExternalWebhook w = some v) :
    (∃ svc, w.service = some svc ∧ v.keyList ⊆ allowedKeys svc) ∧
    (w.url = none → v.hasKey "url" = false) ∧
    (w.description = none → v.hasKey "description" = false) ∧
    (w.headers = none → v.hasKey "headers" = false) ∧
    (w.body = none → v.hasKey "body" = false) := by
  obtain ⟨svc, i, nm, ca, ua, hsv, hmem, hi, hnm, hca, hua, hcase⟩ :=
    format_some_cases w v hv
  rcases hcase with ⟨hgen, hveq⟩ | ⟨hgen, hveq⟩ <;> subst hveq
  · refine ⟨⟨svc, hsv, ?_⟩, ?_, ?_, ?_, ?_⟩
    · subst hgen
      rcases w.url with _ | u <;> rcases w.description with _ | d <;>
        rcases w.headers with _ | hs2 <;> rcases w.body with _ | b <;>
        simp [genericView, JsValue.keyList, allowedKeys, optField]
    · intro h; rw [h]; simp [genericView, JsValue.hasKey]
    · intro h; rw [h]; simp [genericView, JsValue.hasKey]
    · intro h; rw [h]; simp [genericView, JsValue.hasKey]
    · intro h; rw [h]; simp [genericView, JsValue.hasKey]
  · refine ⟨⟨svc, hsv, ?_⟩, ?_, ?_, ?_, ?_⟩
    · rcases w.url with _ | u <;> rcases w.description with _ | d <;>
        simp [slackView, JsValue.keyList, allowedKeys, hgen, optField]
    · intro h; rw [h]; simp [slackView, JsValue.hasKey]
    · intro h; rw [h]; simp [slackView, JsValue.hasKey]
    · intro h; simp [slackView, JsValue.hasKey]
    · intro h; simp [slackView, JsValue.hasKey]

/-- Witness for C2 at the Slack record. -/
theorem external_view_keys_whitelisted_witness :
    (∃ svc, sampleSlack.service = some svc ∧
        JsValue.keyList sampleSlackView ⊆ allowedKeys svc) ∧
    (sampleSlack.url = none → JsValue.hasKey sampleSlackView "url" = false) ∧
    (sampleSlack.description = none →
      JsValue.hasKey sampleSlackView "description" = false) ∧
    (sampleSlack.headers = none →
      JsValue.hasKey sampleSlackView "headers" = false) ∧
    (sampleSlack.body = none → JsValue.hasKey sampleSlackView "body" = false) :=
  external_view_keys_whitelisted sampleSlack sampleSlackView rfl

/-- Claim C3: for a stored `generic` record, the view has the `headers`
key exactly when headers were stored and the `body` key exactly when a
body was stored, and the stored values come back unmodified. -/
theorem generic_view_preserves_headers_body (w : WebhookDocument)
    (v : JsValue) (hsvc : w.service = some "generic")
    (hv : formatExternalWebhook w = some v) :
    v.hasKey "headers" = w.headers.isSome ∧
    v.hasKey "body" = w.body.isSome ∧
    (∀ hs, w.headers = some hs →
      v.getKey "headers" = some (.obj (headerFields hs))) ∧
    (∀ b, w.body = some b → v.getKey "body" = some (.str b)) := by
  obtain ⟨svc, i, nm, ca, ua, hsv, hmem, hi, hnm, hca, hua, hcase⟩ :=
    format_some_cases w v hv
  rw [hsvc] at hsv
  injection hsv with hsv
  rcases hcase with ⟨hgen, hveq⟩ | ⟨hgen, hveq⟩
  swap
  · exact absurd hsv.symm hgen
  subst hveq
  refine ⟨?_, ?_, ?_, ?_⟩
  · rcases w.headers with _ | hs2 <;> simp [genericView, JsValue.hasKey]
  · rcases w.body with _ | b <;> simp [genericView, JsValue.hasKey]
  · intro hs2 h; rw [h]; simp [genericView, JsValue.getKey]
  · intro b h; rw [h]; simp [genericView, JsValue.getKey]

/-- Witness for C3 at the Generic record with headers and body. -/
theorem generic_view_preserves_headers_body_witness :
    JsValue.hasKey sampleGenericView "headers" = sampleGeneric.headers.isSome ∧
    JsValue.hasKey sampleGenericView "body" = sampleGeneric.body.isSome ∧
    (∀ hs, sampleGeneric.headers = some hs →
      JsValue.getKey sampleGenericView "headers" =
        some (.obj (headerFields hs))) ∧
    (∀ b, sampleGeneric.body = some b →
      JsValue.getKey sampleGenericView "body" = some (.str b)) :=
  generic_view_preserves_headers_body sampleGeneric sampleGenericView rfl rfl

/-- Claim C4: a record missing one of the required fields `id`, `name`,
`service`, `createdAt`, `updatedAt`, or carrying an unrecognized service,
is formatted to `undefined` (no error thrown), and is absent from the list
response — its presence in the input leaves the output unchanged while the
input is exactly one record longer. -/
theorem invalid_record_none_and_dropped (w : WebhookDocument)
    (l1 l2 : List WebhookDocument)
    (h : w._id = none ∨ w.name = none ∨ w.service = none ∨
         w.createdAt = none ∨ w.updatedAt = none ∨
         (∃ svc, w.service = some svc ∧ svc ∉ knownServices)) :
    formatExternalWebhook w = none ∧
    listWebhooksData (l1 ++ w :: l2) = listWebhooksData (l1 ++ l2) ∧
    (l1 ++ w :: l2).length = (l1 ++ l2).length + 1 := by
  have hnone : formatExternalWebhook w = none := by
    rcases hv : formatExternalWebhook w with _ | v
    · rfl
    · exfalso
      obtain ⟨svc, i, nm, ca, ua, hsv, hmem, hi, hnm, hca, hua, _⟩ :=
        format_some_cases w v hv
      rcases h with h | h | h | h | h | ⟨svc2, hsvc2, hns⟩ <;> simp_all
  refine ⟨hnone, ?_, by simp only [List.length_append, List.length_cons]; omega⟩
  rw [listWebhooksData_eq_filterMap, listWebhooksData_eq_filterMap]
  simp [List.filterMap_append, List.filterMap_cons, hnone]

/-- Witness for C4 at the record with a missing `name`. -/
theorem invalid_record_none_and_dropped_witness :
    formatExternalWebhook sampleInvalid = none ∧
    listWebhooksData ([sampleSlack] ++ sampleInvalid :: [sampleGeneric]) =
      listWebhooksData ([sampleSlack] ++ [sampleGeneric]) ∧
    ([sampleSlack] ++ sampleInvalid :: [sampleGeneric]).length =
      ([sampleSlack] ++ [sampleGeneric]).length + 1 :=
  invalid_record_none_and_dropped sampleInvalid [sampleSlack] [sampleGeneric]
    (Or.inr (Or.inl rfl))

/-- Claim C5: the list response's data equals the formatter filterMapped
over the retrieved records — each record is formatted in retrieval order,
exactly the `undefined` results are removed, relative order is preserved —
and one malformed record never disturbs the listing of its siblings. -/
theorem list_data_eq_filterMap (webhooks l1 l2 : List WebhookDocument)
    (w : WebhookDocument) (hw : formatExternalWebhook w = none) :
    listWebhooksData webhooks = webhooks.filterMap formatExternalWebhook ∧
    listWebhooksData (l1 ++ w :: l2) = listWebhooksData (l1 ++ l2) := by
  refine ⟨listWebhooksData_eq_filterMap webhooks, ?_⟩
  rw [listWebhooksData_eq_filterMap, listWebhooksData_eq_filterMap]
  simp [List.filterMap_append, List.filterMap_cons, hw]

/-- Witness for C5 with a concrete malformed record among two valid ones. -/
theorem list_data_eq_filterMap_witness :
    listWebhooksData [sampleSlack, sampleGeneric] =
      List.filterMap formatExternalWebhook [sampleSlack, sampleGeneric] ∧
    listWebhooksData ([sampleSlack] ++ sampleInvalid :: [sampleGeneric]) =
      listWebhooksData ([sampleSlack] ++ [sampleGeneric]) :=
  list_data_eq_filterMap [sampleSlack, sampleGeneric] [sampleSlack]
    [sampleGeneric] sampleInvalid rfl

/-- Claim C6: listing is team-scoped — the storage query matches exactly
the records whose `team` equals the caller's team, so a record owned by a
different team never reaches the response of the caller's listing. -/
theorem listing_is_team_scoped (db : List WebhookDocument) (a b : String)
    (hab : a ≠ b) (w : WebhookDocument) (hw : w.team = some b) :
    w ∉ Webhook.find db a ∧
    (∀ w2, w2 ∈ Webhook.find db a ↔ (w2 ∈ db ∧ w2.team = some a)) ∧
    (routerGet db (some a)).body =
      some (.obj (.cons "data"
        (.arr (JsList.ofList (listWebhooksData (Webhook.find db a)))) .nil)) := by
  refine ⟨?_, ?_, rfl⟩
  · intro hmem
    have h2 := (List.mem_filter.mp hmem).2
    rw [hw] at h2
    simp at h2
    exact hab h2.symm
  · intro w2
    simp [Webhook.find, List.mem_filter]

/-- Witness for C6 with two records owned by different teams. -/
theorem listing_is_team_scoped_witness :
    sampleOtherTeam ∉ Webhook.find [sampleSlack, sampleOtherTeam] "team-a" ∧
    (∀ w2, w2 ∈ Webhook.find [sampleSlack, sampleOtherTeam] "team-a" ↔
      (w2 ∈ [sampleSlack, sampleOtherTeam] ∧ w2.team = some "team-a")) ∧
    (routerGet [sampleSlack, sampleOtherTeam] (some "team-a")).body =
      some (.obj (.cons "data"
        (.arr (JsList.ofList (listWebhooksData
          (Webhook.find [sampleSlack, sampleOtherTeam] "team-a")))) .nil)) :=
  listing_is_team_scoped [sampleSlack, sampleOtherTeam] "team-a" "team-b"
    (by decide) sampleOtherTeam rfl

/-- Claim C7: the formatter is a deterministic, pure transformation — it
is modelled as a state-free function, so the same stored record always
yields the same view, and any two defined results for the same record are
byte-identical after serialization. -/
theorem formatter_deterministic (w : WebhookDocument) :
    formatExternalWebhook w = formatExternalWebhook w ∧
    (∀ v1 v2, formatExternalWebhook w = some v1 →
      formatExternalWebhook w = some v2 →
      v1.stringify = v2.stringify) := by
  refine ⟨rfl, fun v1 v2 h1 h2 => ?_⟩
  rw [h1] at h2
  injection h2 with h2
  rw [h2]

/-- Witness for C7 at the concrete Slack record and its view. -/
theorem formatter_deterministic_witness :
    JsValue.stringify sampleSlackView = JsValue.stringify sampleSlackView :=
  (formatter_deterministic sampleSlack).2 sampleSlackView sampleSlackView
    rfl rfl

/-- Claim C8: an authenticated caller with no resolvable team is answered
`403` with no body and before any storage query is issued; a caller whose
team has no webhook records is answered `200` with body
`{ "data": [] }`. -/
theorem no_team_403_empty_team_empty_data (db : List WebhookDocument)
    (t : String) (hempty : ∀ w ∈ db, w.team ≠ some t) :
    (routerGet db none).status = 403 ∧
    (routerGet db none).storageQueries = 0 ∧
    (routerGet db none).body = none ∧
    (routerGet db (some t)).status = 200 ∧
    (routerGet db (some t)).body =
      some (.obj (.cons "data" (.arr .nil) .nil)) := by
  refine ⟨rfl, rfl, rfl, rfl, ?_⟩
  have hfind : Webhook.find db t = [] := by
    unfold Webhook.find
    rw [List.filter_eq_nil_iff]
    intro w hwdb
    simpa using hempty w hwdb
  have hbody : (routerGet db (some t)).body =
      some (.obj (.cons "data"
        (.arr (JsList.ofList (listWebhooksData (Webhook.find db t)))) .nil)) := rfl
  rw [hbody, hfind]
  rfl

/-- Witness for C8 with a store holding no records for the queried team. -/
theorem no_team_403_empty_team_empty_data_witness :
    (routerGet [sampleSlack] none).status = 403 ∧
    (routerGet [sampleSlack] none).storageQueries = 0 ∧
    (routerGet [sampleSlack] none).body = none ∧
    (routerGet [sampleSlack] (some "team-z")).status = 200 ∧
    (routerGet [sampleSlack] (some "team-z")).body =
      some (.obj (.cons "data" (.arr .nil) .nil)) :=
  no_team_403_empty_team_empty_data [sampleSlack] "team-z" (by decide)

/-- Claim C9: the `id` of every defined external view is the stored
identifier re-encoded as a plain JSON string (never an ObjectId value). -/
theorem view_id_is_plain_string (w : WebhookDocument) (v : JsValue)
    (hv : formatExternalWebhook w = some v) :
    ∃ i, w._id = some i ∧ v.getKey "id" = some (.str i) := by
  obtain ⟨svc, i, nm, ca, ua, hsv, hmem, hi, hnm, hca, hua, hcase⟩ :=
    format_some_cases w v hv
  refine ⟨i, hi, ?_⟩
  rcases hcase with ⟨hgen, hveq⟩ | ⟨hgen, hveq⟩ <;> subst hveq <;>
    simp [genericView, slackView, JsValue.getKey]

/-- Witness for C9 at the concrete Slack record. -/
theorem view_id_is_plain_string_witness :
    ∃ i, sampleSlack._id = some i ∧
      JsValue.getKey sampleSlackView "id" = some (.str i) :=
  view_id_is_plain_string sampleSlack sampleSlackView rfl

/-- Claim C10: a defined external view is made of plain JSON values — in
particular `createdAt` and `updatedAt` are strings, not Date values — and
it is a fixed point of the JSON serialization round trip. -/
theorem view_roundtrip_fixed_point (w : WebhookDocument) (v : JsValue)
    (hv : formatExternalWebhook w = some v) :
    jsonRoundTrip v = v ∧
    (∃ s, v.getKey "createdAt" = some (.str s)) ∧
    (∃ s, v.getKey "updatedAt" = some (.str s)) := by
  obtain ⟨svc, i, nm, ca, ua, hsv, hmem, hi, hnm, hca, hua, hcase⟩ :=
    format_some_cases w v hv
  rcases hcase with ⟨hgen, hveq⟩ | ⟨hgen, hveq⟩ <;> subst hveq <;>
    refine ⟨?_, ⟨ca, ?_⟩, ⟨ua, ?_⟩⟩ <;>
    simp [genericView, slackView, JsValue.getKey, jsonRoundTrip,
      jsonRoundTripFields]

/-- Witness for C10 at the concrete Generic record and its view. -/
theorem view_roundtrip_fixed_point_witness :
    jsonRoundTrip sampleGenericView = sampleGenericView ∧
    (∃ s, JsValue.getKey sampleGenericView "createdAt" = some (.str s)) ∧
    (∃ s, JsValue.getKey sampleGenericView "updatedAt" = some (.str s)) :=
  view_roundtrip_fixed_point sampleGeneric sampleGenericView rfl
